/-
Verification of the gosearch repository (vcabbage/gosearch) against its
natural-language specification.

The development shallowly embeds the program's core pipeline from
`src/main.go` (and the alternate revision `src/unnamed/part_000`):

* `pack` mirrors the Go struct `pack` (the unused float field `Score` is
  carried only in the JSON field tables, since ranking never reads it);
* `FilterCriteria` mirrors the flag block of `run` (limit/forks/apps/
  stars/imports/installed/inpath);
* `sortMatches` models the `sort.Sort(packsByImports ...)` /
  `sort.Sort(packsByStars ...)` call: a sorting algorithm producing a
  permutation of the input that is sorted by the comparator of
  `packsByImports.Less` / `packsByStars.Less` (Go's sort is unspecified on
  ties, so any sorted permutation is a faithful model);
* `filterLoop` mirrors the display loop of `run` (main.go lines 71-102),
  with its chain of `continue` guards, the display counter `i`, the
  `append`, and the `limit` break;
* `selectorLoop`, `runAfterDisplay`, `runFromMatches` model the
  interactive selection loop and install phase (main.go lines 108-162),
  with stdin modelled as a finite script of read results and all writes
  collected into a log;
* the JSON machinery (`tagGet`, `jsonEffectiveName`, `jsonFieldFor`,
  `decodePack`) models Go's `reflect.StructTag.Get` and `encoding/json`
  field matching, applied to the literal struct tags of `pack` from both
  source revisions.
-/
import Mathlib

namespace Gosearch

/-- Mirror of the Go struct `pack` (main.go lines 165-173).  The `Score`
field (a float the program never reads) is omitted from the record; its
struct tag still appears in the JSON field tables below. -/
structure pack where
  name : String
  path : String
  importCount : Int
  synopsis : String
  fork : Bool
  stars : Int
  deriving Repr, DecidableEq, Inhabited

/-- The flag block of `run` (main.go lines 30-41): the configuration of one
invocation, i.e. the spec's FilterCriteria plus the display limit and the
installed-marking mode. -/
structure FilterCriteria where
  limit : Int
  forks : Bool
  apps : Bool
  minStars : Int
  minImports : Int
  showInstalled : Bool
  inPath : Bool
  deriving Repr, DecidableEq

/-- Go `strings.Contains(s, sub)`: `sub` occurs in `s` as a contiguous
substring. -/
def goContains (s sub : String) : Bool := decide (sub.toList <:+: s.toList)

/-- The chain of `continue` guards of the display loop (main.go lines
72-89), as the predicate "this hit is kept". -/
def keepsHit (c : FilterCriteria) (query : String) (p : pack) : Bool :=
  if !c.forks && p.fork then false
  else if c.apps && p.name != "main" then false
  else if !c.apps && p.name == "main" then false
  else if p.stars < c.minStars then false
  else if p.importCount < c.minImports then false
  else if c.inPath && !goContains p.path query then false
  else true

/-- The ranking key: `packsByStars` compares `Stars`, `packsByImports`
compares `ImportCount` (main.go lines 175-185); `run` picks `packsByStars`
exactly when `-apps` is set (main.go lines 60-65). -/
def rankKey (apps : Bool) (p : pack) : Int :=
  if apps then p.stars else p.importCount

/-- `a` may precede `b` in the sorted order: the negation of
`Less b a`, i.e. `¬ (rankKey b > rankKey a)`. -/
def rankLe (apps : Bool) (a b : pack) : Bool :=
  decide (rankKey apps b ≤ rankKey apps a)

/-- Insert one element into a list sorted by `rankLe`. -/
def sortInsert (apps : Bool) (a : pack) : List pack → List pack
  | [] => [a]
  | b :: l => if rankLe apps a b then a :: b :: l else b :: sortInsert apps a l

/-- Model of `sort.Sort(packsByImports matches)` / `sort.Sort(packsByStars
matches)` (main.go lines 60-65): a sorted permutation of the input in
non-increasing ranking-key order. -/
def sortMatches (apps : Bool) : List pack → List pack
  | [] => []
  | a :: l => sortInsert apps a (sortMatches apps l)

/-- The display loop of `run` (main.go lines 71-102): walk the sorted
matches, skip hits failing a guard, give each kept hit the next 1-based
display index, and stop once `limit` entries are kept (when `limit > 0`).
`acc` holds the kept `(index, hit)` pairs, `i` the running counter. -/
def filterLoop (c : FilterCriteria) (query : String) :
    List pack → Nat → List (Nat × pack) → List (Nat × pack)
  | [], _, acc => acc
  | p :: rest, i, acc =>
    if keepsHit c query p then
      if c.limit > 0 ∧ ((acc ++ [(i + 1, p)]).length : Int) ≥ c.limit then
        acc ++ [(i + 1, p)]
      else filterLoop c query rest (i + 1) (acc ++ [(i + 1, p)])
    else filterLoop c query rest i acc

/-- The displayed entries of one run: the filter/ranker's output, each hit
paired with its 1-based display index. -/
def displayedEntries (c : FilterCriteria) (query : String)
    (hits : List pack) : List (Nat × pack) :=
  filterLoop c query (sortMatches c.apps hits) 0 []

/-- The `packs` slice after the display loop (main.go line 98): the
displayed hits in display order. -/
def displayedPacks (c : FilterCriteria) (query : String)
    (hits : List pack) : List pack :=
  (displayedEntries c query hits).map Prod.snd

/-- One invocation of `reader.ReadString('\n')` on stdin: either a line of
text or a read error (which the selector loop reports and retries). -/
inductive ReadResult where
  | line (s : String)
  | readErr
  deriving Repr, DecidableEq

/-- The byte set of Go's `unicode.IsSpace` restricted to ASCII: space,
tab, newline, vertical tab, form feed, carriage return. -/
def goIsSpace (c : Char) : Bool :=
  c == ' ' || c == '\t' || c == '\n' || c == Char.ofNat 11 ||
    c == Char.ofNat 12 || c == '\r'

/-- Go `strings.TrimSpace` (ASCII subset): drop whitespace from both
ends.  All inputs the program feeds it are ASCII lines. -/
def goTrimSpace (s : String) : String :=
  String.mk (((s.toList.dropWhile goIsSpace).reverse.dropWhile goIsSpace).reverse)

/-- The numeric value of a nonempty all-digit character list. -/
def digitsVal (cs : List Char) : Option Nat :=
  if cs.isEmpty then none
  else if cs.all Char.isDigit then
    some (cs.foldl (fun a c => a * 10 + (c.toNat - 48)) 0)
  else none

/-- Go `strconv.Atoi`: an optional sign followed by one or more decimal
digits, rejected when the value falls outside the 64-bit int range
(`ErrRange` also makes `Atoi` return a non-nil error). -/
def goAtoi (s : String) : Option Int :=
  let cs := s.toList
  let signDigits : Bool × List Char :=
    match cs with
    | '+' :: rest => (false, rest)
    | '-' :: rest => (true, rest)
    | _ => (false, cs)
  match digitsVal signDigits.2 with
  | none => none
  | some n =>
    let v : Int := if signDigits.1 then -(n : Int) else (n : Int)
    if v < -(2 ^ 63) ∨ v ≥ 2 ^ 63 then none else some v

/-- The prompt printed at the top of each selector iteration (main.go
line 116). -/
def promptMsg : String := "Install Package #: "

/-- The diagnostic for an out-of-range selection (main.go line 128):
`fmt.Println("No entry for", packN)`. -/
def noEntryMsg (k : Int) : String := s!"No entry for {k}"

/-- Result of the selection loop: the user declined (non-integer input,
`return 0`), chose entry `k` (loop `break`), or the input script ran out
while the loop was still re-prompting (the real loop would keep
blocking/retrying). -/
inductive SelectorResult where
  | declined (log : List String)
  | chosen (k : Nat) (rest : List ReadResult) (log : List String)
  | outOfInput (log : List String)
  deriving Repr, DecidableEq

/-- The selection loop of `run` (main.go lines 113-133) over a script of
stdin reads, for `n` displayed entries.  Read errors print a message and
retry; non-integer input exits the run with status 0; out-of-range
integers print `noEntryMsg` and re-prompt; an in-range integer breaks the
loop. -/
def selectorLoop (n : Nat) : List ReadResult → List String → SelectorResult
  | [], log => .outOfInput log
  | .readErr :: rest, log =>
    selectorLoop n rest (log ++ [promptMsg, "error reading from stdin"])
  | .line s :: rest, log =>
    match goAtoi (goTrimSpace s) with
    | none => .declined (log ++ [promptMsg])
    | some k =>
      if k < 1 ∨ k > (n : Int) then
        selectorLoop n rest (log ++ [promptMsg, noEntryMsg k])
      else .chosen k.toNat rest (log ++ [promptMsg])

/-- The argument vector composition of the installer (main.go lines
145-147): start from `["get"]`, append the pass-through go flags, append
the selected import path. -/
def installArgs (goflags : List String) (importPath : String) : List String :=
  let args := ["get"]
  let args := args ++ goflags
  let args := args ++ [importPath]
  args

/-- The `goflags == nil` defaulting of `run` (main.go lines 50-52): when
no `-goflags` were supplied the pass-through arguments are `-u -v`. -/
def effectiveGoflags (goflags : Option (List String)) : List String :=
  match goflags with
  | none => ["-u", "-v"]
  | some l => l

/-- The environment of the install phase: the result of
`exec.LookPath("go")`, whether `cmd.Run()` succeeds, and the error text
printed when it fails. -/
structure InstallEnv where
  goBin : Option String
  installOk : Bool
  installErrText : String
  deriving Repr, DecidableEq

/-- Outcome of the modelled run suffix: either the script ran out inside
the selector loop (`hung`), or the run finished with an exit code, the
spawned install command (binary and argument vector) if any, and the log
of writes. -/
inductive RunOutcome where
  | hung (log : List String)
  | finished (exitCode : Int) (installCmd : Option (String × List String))
      (log : List String)
  deriving Repr, DecidableEq

/-- The exit code of a finished run. -/
def RunOutcome.exitCode? : RunOutcome → Option Int
  | .hung _ => none
  | .finished c _ _ => some c

/-- The spawned install command of a finished run, if any. -/
def RunOutcome.installCmd? : RunOutcome → Option (String × List String)
  | .hung _ => none
  | .finished _ cmd _ => cmd

/-- The write log of a run outcome. -/
def RunOutcome.writes : RunOutcome → List String
  | .hung log => log
  | .finished _ _ log => log

/-- Prepend earlier writes to a run outcome's log. -/
def RunOutcome.prependLog (pre : List String) : RunOutcome → RunOutcome
  | .hung log => .hung (pre ++ log)
  | .finished c cmd log => .finished c cmd (pre ++ log)

/-- The run suffix from the selection loop on (main.go lines 113-162):
select an entry, print `Installing <path>`, look up the go binary, compose
the install command, print it, read one confirmation line whose value and
error are both discarded (main.go line 151), spawn the command, and turn
its success or failure into the exit code. -/
def runAfterDisplay (packs : List pack) (goflags : List String)
    (env : InstallEnv) (script : List ReadResult) : RunOutcome :=
  match selectorLoop packs.length script [] with
  | .outOfInput log => .hung log
  | .declined log => .finished 0 none log
  | .chosen k _rest log =>
    let importPath := (packs.getD (k - 1) default).path
    let log := log ++ [s!"Installing {importPath}"]
    match env.goBin with
    | none => .finished 1 none (log ++ ["Could not find go binary in PATH"])
    | some goBin =>
      let args := installArgs goflags importPath
      let joined := String.intercalate " " args
      let log := log ++ [s!"Install command: {goBin} {joined}",
        "Press enter to continue..."]
      if env.installOk then .finished 0 (some (goBin, args)) log
      else .finished 1 (some (goBin, args)) (log ++ [env.installErrText])

/-- The table header (main.go line 68). -/
def tableHeader : String := "#\tStars\tImports\tPath\tDescription\t"

/-- One table row (main.go lines 92-97): the display index, stars,
imports, the path (star-marked when installed-marking is on and the
`go list` check succeeds), and the synopsis. -/
def rowString (showInstalled : Bool) (installedCheck : String → Bool)
    (e : Nat × pack) : String :=
  let idx := e.1
  let p := e.2
  let path := if showInstalled && installedCheck p.path then "*" ++ p.path else p.path
  let st := p.stars
  let ic := p.importCount
  let syn := p.synopsis
  s!"{idx}\t{st}\t{ic}\t{path}\t{syn}\t"

/-- The run pipeline from the sorted/filtered matches on (main.go lines
60-162): render the table, print the legend when installed-marking is on,
stop with `No matches.` and exit code 1 when nothing survived the filter,
otherwise continue into the selection loop and install phase. -/
def runFromMatches (c : FilterCriteria) (query : String)
    (goflags : List String) (env : InstallEnv)
    (installedCheck : String → Bool) (hits : List pack)
    (script : List ReadResult) : RunOutcome :=
  let displayed := displayedEntries c query hits
  let packs := displayed.map Prod.snd
  let log := tableHeader :: displayed.map (rowString c.showInstalled installedCheck)
  let log := if c.showInstalled then log ++ ["* = installed"] else log
  if packs.length = 0 then .finished 1 none (log ++ ["No matches."])
  else (runAfterDisplay packs goflags env script).prependLog log

/-- A character Go's `reflect.StructTag.Lookup` accepts in a tag key:
anything above space other than `:`, `"` and DEL. -/
def tagNameChar (c : Char) : Bool :=
  decide (32 < c.toNat) && (c != ':') && (c != '"') && (c.toNat != 127)

/-- Scan a struct-tag quoted value from just after its opening quote,
skipping backslash-escaped characters, up to the closing quote (the scan
loop of `reflect.StructTag.Lookup`).  Returns the body (escapes kept) and
the remainder, or `none` when the quote is never closed. -/
def scanQuotedBody : List Char → Option (List Char × List Char)
  | [] => none
  | '"' :: rest => some ([], rest)
  | '\\' :: c :: rest =>
    match scanQuotedBody rest with
    | none => none
    | some (b, r) => some ('\\' :: c :: b, r)
  | c :: rest =>
    match scanQuotedBody rest with
    | none => none
    | some (b, r) => some (c :: b, r)

/-- Go `strconv.Unquote` on a double-quoted string, restricted to
escape-free bodies (every struct tag of `pack` is escape-free): the body
itself, or `none` when it holds a backslash, quote or newline. -/
def goUnquoteSimple (body : List Char) : Option String :=
  if body.all (fun c => (c != '\\') && (c != '"') && (c != '\n'))
  then some (String.mk body) else none

/-- The loop of `reflect.StructTag.Lookup`: skip spaces, scan a key, demand
`:"`, scan the quoted value, return it (unquoted) when the key matches,
otherwise continue after the value; any syntax error stops the search.
`fuel` only bounds the iteration count; each step consumes input, and
`tagGet` supplies more fuel than the tag has characters. -/
def tagLookupAux (key : String) : Nat → List Char → Option String
  | 0, _ => none
  | fuel + 1, tag0 =>
    let tag := tag0.dropWhile (· == ' ')
    if tag.isEmpty then none
    else
      let nm := tag.takeWhile tagNameChar
      let rest := tag.dropWhile tagNameChar
      if nm.isEmpty then none
      else
        match rest with
        | ':' :: '"' :: rest2 =>
          match scanQuotedBody rest2 with
          | none => none
          | some (body, rest3) =>
            if String.mk nm = key then goUnquoteSimple body
            else tagLookupAux key fuel rest3
        | _ => none

/-- Go `reflect.StructTag.Get`: the value for `key` in the raw tag, or
`""` when absent or malformed. -/
def tagGet (rawTag key : String) : String :=
  match tagLookupAux key (rawTag.length + 1) rawTag.toList with
  | none => ""
  | some v => v

/-- A character valid in a JSON field-tag name (`encoding/json`'s
`isValidTag`, ASCII subset): letters, digits, and a fixed punctuation
set. -/
def jsonValidTagChar (c : Char) : Bool :=
  c.isAlpha || c.isDigit || "!#$%&()*+-./:;<=>?@[]^_\x7b|\x7d~ ".toList.contains c

/-- `encoding/json`'s `parseTag`: the tag name is everything before the
first comma. -/
def jsonTagName (tag : String) : String :=
  String.mk (tag.toList.takeWhile (· != ','))

/-- `encoding/json`'s `isValidTag`. -/
def isValidJsonTag (s : String) : Bool :=
  !s.isEmpty && s.toList.all jsonValidTagChar

/-- The effective JSON object key of one struct field (`encoding/json`'s
`typeFields`): the `json` tag's name when present and valid, else the Go
field name; `none` when the tag is exactly `-` (field skipped). -/
def jsonEffectiveName (fieldName rawTag : String) : Option String :=
  let tag := tagGet rawTag "json"
  if tag = "-" then none
  else
    let nm := jsonTagName tag
    let nm := if isValidJsonTag nm then nm else ""
    some (if nm = "" then fieldName else nm)

/-- The decodable fields of a struct: Go field name paired with effective
JSON key. -/
def effectiveFields (fields : List (String × String)) : List (String × String) :=
  fields.filterMap (fun fp =>
    match jsonEffectiveName fp.1 fp.2 with
    | none => none
    | some nm => some (fp.1, nm))

/-- ASCII case fold, the fragment of `encoding/json`'s `foldName` the
program's field names exercise. -/
def asciiLower (c : Char) : Char := if c.isUpper then c.toLower else c

/-- Case-insensitive key comparison of `encoding/json` (ASCII subset). -/
def jsonFoldEq (a b : String) : Bool :=
  a.toList.map asciiLower == b.toList.map asciiLower

/-- `encoding/json` object-key resolution: an exact match on the effective
field name wins, otherwise the first case-insensitive match; `none` when
no field matches (the key's value is dropped). -/
def jsonFieldFor (fields : List (String × String)) (key : String) :
    Option String :=
  match (effectiveFields fields).find? (fun fp => fp.2 == key) with
  | some fp => some fp.1
  | none =>
    match (effectiveFields fields).find? (fun fp => jsonFoldEq fp.2 key) with
    | some fp => some fp.1
    | none => none

/-- The struct tags of `pack` in `src/main.go` (lines 165-173), verbatim.
Note the `ImportCount` tag's key is `bool`, not `json`. -/
def packFieldsMainGo : List (String × String) :=
  [("Name", "json:\"name,omitempty\""),
   ("Path", "json:\"path\""),
   ("ImportCount", "bool:\"import_count\""),
   ("Synopsis", "json:\"synopsis,omitempty\""),
   ("Fork", "json:\"fork,omitempty\""),
   ("Stars", "json:\"stars,omitempty\""),
   ("Score", "json:\"score,omitempty\"")]

/-- The struct tags of `pack` in `src/unnamed/part_000` (lines 191-199),
verbatim.  The `ImportCount` tag never closes its quote. -/
def packFieldsPart000 : List (String × String) :=
  [("Name", "json:\"name,omitempty\""),
   ("Path", "json:\"path\""),
   ("ImportCount", "json:\"import_count"),
   ("Synopsis", "json:\"synopsis,omitempty\""),
   ("Fork", "json:\"fork,omitempty\""),
   ("Stars", "json:\"stars,omitempty\""),
   ("Score", "json:\"score,omitempty\"")]

/-- A JSON value of the shapes the `pack` fields use. -/
inductive JsonVal where
  | str (s : String)
  | int (n : Int)
  | boolVal (b : Bool)
  deriving Repr, DecidableEq

/-- The Go zero value of `pack`. -/
def zeroPack : pack :=
  { name := "", path := "", importCount := 0, synopsis := "", fork := false,
    stars := 0 }

/-- Store one decoded JSON value into the `pack` field of the given Go
field name (the `Score` float is not carried by the record and is
dropped). -/
def assignPackField (p : pack) (field : String) (v : JsonVal) : pack :=
  match field, v with
  | "Name", .str s => { p with name := s }
  | "Path", .str s => { p with path := s }
  | "ImportCount", .int n => { p with importCount := n }
  | "Synopsis", .str s => { p with synopsis := s }
  | "Fork", .boolVal b => { p with fork := b }
  | "Stars", .int n => { p with stars := n }
  | _, _ => p

/-- Decode one JSON object into a `pack` with the given field table:
for each key, resolve the target field per `encoding/json` and assign;
unmatched keys are dropped. -/
def decodePack (fields : List (String × String))
    (obj : List (String × JsonVal)) : pack :=
  obj.foldl (fun p kv =>
    match jsonFieldFor fields kv.1 with
    | some f => assignPackField p f kv.2
    | none => p) zeroPack

/-! ### Helper lemmas about the sort model -/

theorem rankLe_total (apps : Bool) (a b : pack) :
    rankLe apps a b = true ∨ rankLe apps b a = true := by
  simp only [rankLe, decide_eq_true_eq]
  exact (le_total (rankKey apps b) (rankKey apps a)).imp id id

theorem rankLe_trans {apps : Bool} {a b c : pack}
    (h1 : rankLe apps a b = true) (h2 : rankLe apps b c = true) :
    rankLe apps a c = true := by
  simp only [rankLe, decide_eq_true_eq] at h1 h2 ⊢
  exact le_trans h2 h1

theorem sortInsert_perm (apps : Bool) (a : pack) (l : List pack) :
    List.Perm (sortInsert apps a l) (a :: l) := by
  induction l with
  | nil => simp [sortInsert]
  | cons b t ih =>
    simp only [sortInsert]
    by_cases h : rankLe apps a b = true
    · rw [if_pos h]
    · rw [if_neg h]
      exact (ih.cons b).trans (List.Perm.swap a b t)

theorem sortMatches_perm (apps : Bool) (l : List pack) :
    List.Perm (sortMatches apps l) l := by
  induction l with
  | nil => simp [sortMatches]
  | cons a t ih =>
    exact (sortInsert_perm apps a (sortMatches apps t)).trans (ih.cons a)

theorem pairwise_sortInsert (apps : Bool) (a : pack) (l : List pack)
    (h : List.Pairwise (fun x y => rankLe apps x y = true) l) :
    List.Pairwise (fun x y => rankLe apps x y = true) (sortInsert apps a l) := by
  induction l with
  | nil => simp [sortInsert]
  | cons b t ih =>
    rcases List.pairwise_cons.mp h with ⟨hb, ht⟩
    simp only [sortInsert]
    by_cases hab : rankLe apps a b = true
    · rw [if_pos hab]
      refine List.Pairwise.cons ?_ h
      intro y hy
      rcases List.mem_cons.mp hy with rfl | hy'
      · exact hab
      · exact rankLe_trans hab (hb y hy')
    · rw [if_neg hab]
      have hba : rankLe apps b a = true :=
        (rankLe_total apps a b).resolve_left hab
      refine List.Pairwise.cons ?_ (ih ht)
      intro y hy
      have : y = a ∨ y ∈ t := by
        have := (sortInsert_perm apps a t).mem_iff.mp hy
        simpa using this
      rcases this with rfl | hy'
      · exact hba
      · exact hb y hy'

theorem pairwise_sortMatches (apps : Bool) (l : List pack) :
    List.Pairwise (fun x y => rankLe apps x y = true) (sortMatches apps l) := by
  induction l with
  | nil => simp [sortMatches]
  | cons a t ih => exact pairwise_sortInsert apps a (sortMatches apps t) ih

/-! ### Helper lemmas about the display loop -/

theorem keepsHit_eq_true_iff (c : FilterCriteria) (q : String) (p : pack) :
    keepsHit c q p = true ↔
      (c.forks = true ∨ p.fork = false) ∧
      (c.apps = true → p.name = "main") ∧
      (c.apps = false → p.name ≠ "main") ∧
      c.minStars ≤ p.stars ∧
      c.minImports ≤ p.importCount ∧
      (c.inPath = true → goContains p.path q = true) := by
  unfold keepsHit
  split_ifs with h1 h2 h3 h4 h5 h6 <;> simp_all <;>
    cases hcf : c.forks <;> simp_all

theorem mem_filterLoop (c : FilterCriteria) (q : String) :
    ∀ (l : List pack) (i : Nat) (acc : List (Nat × pack)) (x : Nat × pack),
      x ∈ filterLoop c q l i acc → x ∈ acc ∨ keepsHit c q x.2 = true := by
  intro l
  induction l with
  | nil => intro i acc x h; exact Or.inl h
  | cons p rest ih =>
    intro i acc x h
    simp only [filterLoop] at h
    by_cases hk : keepsHit c q p = true
    · rw [if_pos hk] at h
      by_cases hl : c.limit > 0 ∧ ((acc ++ [(i + 1, p)]).length : Int) ≥ c.limit
      · rw [if_pos hl] at h
        rcases List.mem_append.mp h with h' | h'
        · exact Or.inl h'
        · right
          have hx : x = (i + 1, p) := by simpa using h'
          rw [hx]
          exact hk
      · rw [if_neg hl] at h
        rcases ih _ _ _ h with h' | h'
        · rcases List.mem_append.mp h' with h'' | h''
          · exact Or.inl h''
          · right
            have hx : x = (i + 1, p) := by simpa using h''
            rw [hx]
            exact hk
        · exact Or.inr h'
    · rw [if_neg hk] at h
      exact ih _ _ _ h

theorem filterLoop_sublist (c : FilterCriteria) (q : String) :
    ∀ (l : List pack) (i : Nat) (acc : List (Nat × pack)),
      ((filterLoop c q l i acc).map Prod.snd).Sublist (acc.map Prod.snd ++ l) := by
  intro l
  induction l with
  | nil => intro i acc; simp [filterLoop]
  | cons p rest ih =>
    intro i acc
    simp only [filterLoop]
    by_cases hk : keepsHit c q p = true
    · rw [if_pos hk]
      by_cases hl : c.limit > 0 ∧ ((acc ++ [(i + 1, p)]).length : Int) ≥ c.limit
      · rw [if_pos hl]
        simp only [List.map_append, List.map_cons, List.map_nil]
        exact List.Sublist.append_left ((List.nil_sublist rest).cons₂ p) _
      · rw [if_neg hl]
        have h := ih (i + 1) (acc ++ [(i + 1, p)])
        simpa [List.append_assoc] using h
    · rw [if_neg hk]
      exact (ih i acc).trans
        (List.Sublist.append_left (List.sublist_cons_self p rest) _)

theorem filterLoop_length_le (c : FilterCriteria) (q : String)
    (l : List pack) (i : Nat) (acc : List (Nat × pack)) :
    (filterLoop c q l i acc).length ≤ acc.length + l.length := by
  have h := (filterLoop_sublist c q l i acc).length_le
  simpa using h

theorem filterLoop_length_le_limit (c : FilterCriteria) (q : String)
    (hpos : 0 < c.limit) :
    ∀ (l : List pack) (i : Nat) (acc : List (Nat × pack)),
      (acc.length : Int) < c.limit →
      ((filterLoop c q l i acc).length : Int) ≤ c.limit := by
  intro l
  induction l with
  | nil =>
    intro i acc h
    simpa [filterLoop] using le_of_lt h
  | cons p rest ih =>
    intro i acc h
    simp only [filterLoop]
    by_cases hk : keepsHit c q p = true
    · rw [if_pos hk]
      by_cases hl : c.limit > 0 ∧ ((acc ++ [(i + 1, p)]).length : Int) ≥ c.limit
      · rw [if_pos hl]
        simp only [List.length_append, List.length_cons, List.length_nil]
        push_cast
        omega
      · rw [if_neg hl]
        apply ih
        push_neg at hl
        have := hl hpos
        simpa using this
    · rw [if_neg hk]
      exact ih i acc h

theorem filterLoop_indices (c : FilterCriteria) (q : String) :
    ∀ (l : List pack) (acc : List (Nat × pack)),
      acc.map Prod.fst = List.range' 1 acc.length →
      (filterLoop c q l acc.length acc).map Prod.fst
        = List.range' 1 (filterLoop c q l acc.length acc).length := by
  intro l
  induction l with
  | nil => intro acc h; simpa [filterLoop] using h
  | cons p rest ih =>
    intro acc h
    simp only [filterLoop]
    by_cases hk : keepsHit c q p = true
    · rw [if_pos hk]
      have hacc' : (acc ++ [(acc.length + 1, p)]).map Prod.fst
          = List.range' 1 (acc ++ [(acc.length + 1, p)]).length := by
        simp [List.range'_concat, h, Nat.add_comm]
      by_cases hl : c.limit > 0 ∧
          ((acc ++ [(acc.length + 1, p)]).length : Int) ≥ c.limit
      · rw [if_pos hl]
        exact hacc'
      · rw [if_neg hl]
        have := ih (acc ++ [(acc.length + 1, p)]) hacc'
        simpa using this
    · rw [if_neg hk]
      exact ih acc h

/-! ### Claims about the filter/ranker (C1, C2, C8, C9) -/

/-- C1: for every FilterCriteria and every input sequence of SearchHit,
every entry in the filter/ranker's output satisfies all five predicates of
spec section 4.2 — fork inclusion, name equals/differs-from "main"
according to wantApplications, starCount ≥ minStars, importCount ≥
minImports, and path contains the query when pathMustContainQuery — and
therefore no hit violating any predicate appears in the output. -/
theorem c1_filter_output_satisfies_predicates (c : FilterCriteria)
    (q : String) (hits : List pack) (p : pack)
    (hp : p ∈ displayedPacks c q hits) :
    (c.forks = true ∨ p.fork = false) ∧
    (c.apps = true → p.name = "main") ∧
    (c.apps = false → p.name ≠ "main") ∧
    c.minStars ≤ p.stars ∧
    c.minImports ≤ p.importCount ∧
    (c.inPath = true → goContains p.path q = true) := by
  simp only [displayedPacks] at hp
  rcases List.mem_map.mp hp with ⟨e, he, rfl⟩
  simp only [displayedEntries] at he
  rcases mem_filterLoop c q _ _ _ _ he with h | h
  · simp at h
  · exact (keepsHit_eq_true_iff c q e.2).mp h

/-- C2: for every FilterCriteria and every input sequence of SearchHit,
the output of the filter/ranker is monotonically non-increasing in the
selected ranking key — starCount when wantApplications is set, importCount
otherwise. -/
theorem c2_output_monotone_in_rank_key (c : FilterCriteria) (q : String)
    (hits : List pack) :
    List.Pairwise (fun a b => rankKey c.apps b ≤ rankKey c.apps a)
      (displayedPacks c q hits) := by
  have hsorted := pairwise_sortMatches c.apps hits
  have hsub := filterLoop_sublist c q (sortMatches c.apps hits) 0 []
  simp only [List.map_nil, List.nil_append] at hsub
  have hpw : List.Pairwise (fun x y => rankLe c.apps x y = true)
      (displayedPacks c q hits) :=
    List.Pairwise.sublist hsub hsorted
  exact hpw.imp (fun h => by simpa [rankLe] using h)

/-- C8: for every FilterCriteria and input sequence, the filter/ranker's
output length is at most displayLimit when displayLimit > 0, and is
bounded by the input length in any case (in particular when displayLimit
is 0 or negative). -/
theorem c8_output_length_bound (c : FilterCriteria) (q : String)
    (hits : List pack) :
    (0 < c.limit → ((displayedPacks c q hits).length : Int) ≤ c.limit) ∧
    (displayedPacks c q hits).length ≤ hits.length := by
  constructor
  · intro hpos
    have h := filterLoop_length_le_limit c q hpos (sortMatches c.apps hits)
      0 [] (by simpa using hpos)
    simpa [displayedPacks, displayedEntries] using h
  · have h1 := filterLoop_length_le c q (sortMatches c.apps hits) 0 []
    have h2 : (sortMatches c.apps hits).length = hits.length :=
      (sortMatches_perm c.apps hits).length_eq
    simpa [displayedPacks, displayedEntries, h2] using h1

/-- C9: for every FilterCriteria and input sequence, the display indices
assigned to the output entries are exactly the consecutive integers
1 through len(output), with no gaps and no repeats. -/
theorem c9_display_indices_consecutive (c : FilterCriteria) (q : String)
    (hits : List pack) :
    (displayedEntries c q hits).map Prod.fst
      = List.range' 1 (displayedEntries c q hits).length := by
  have h := filterLoop_indices c q (sortMatches c.apps hits) [] (by simp)
  simpa [displayedEntries] using h

/-! ### Claims about the installer composition (C3) and the JSON decode
(C4) -/

/-- C3: the installer composes the argument vector as the literal
subcommand "get", then the pass-through arguments, then the selected path
(main.go lines 145-147); when no pass-through arguments were supplied the
defaults "-u" "-v" apply (main.go lines 50-52), so for path
"example.com/foo" the composed command is
["get","-u","-v","example.com/foo"]. -/
theorem c3_install_command_composition :
    (∀ (goflags : List String) (p : String),
        installArgs goflags p = ["get"] ++ goflags ++ [p]) ∧
    effectiveGoflags none = ["-u", "-v"] ∧
    installArgs (effectiveGoflags none) "example.com/foo"
      = ["get", "-u", "-v", "example.com/foo"] := by
  refine ⟨fun goflags p => ?_, rfl, rfl⟩
  simp [installArgs]

/-- C4 fails on the code: in `src/main.go` the `ImportCount` struct tag's
key is `bool`, not `json`, and in `src/unnamed/part_000` the `json` tag
never closes its quote, so `reflect.StructTag.Get("json")` yields `""`
for this field in both revisions and the decoder matches the field only
under the name `ImportCount`.  The canonical JSON key `import_count`
matches no field (neither exactly nor case-insensitively), so its value
is dropped and the decoded `importCount` stays at the zero value 0 —
while sibling keys such as `path` decode fine. -/
theorem c4_import_count_key_never_decoded :
    jsonFieldFor packFieldsMainGo "import_count" = none ∧
    jsonFieldFor packFieldsPart000 "import_count" = none ∧
    (decodePack packFieldsMainGo
      [("path", .str "example.com/foo"), ("import_count", .int 5)]).importCount
      = 0 ∧
    (decodePack packFieldsMainGo
      [("path", .str "example.com/foo"), ("import_count", .int 5)]).path
      = "example.com/foo" ∧
    (decodePack packFieldsPart000
      [("path", .str "example.com/foo"), ("import_count", .int 5)]).importCount
      = 0 := by
  refine ⟨by decide, by decide, by decide, by decide, by decide⟩

/-! ### Helper lemmas about the selection loop -/

/-- A stdin read the selection loop answers with a re-prompt rather than a
terminal action: a read error, or a line whose trimmed text parses to an
out-of-range integer. -/
def repromptRead (n : Nat) : ReadResult → Prop
  | .readErr => True
  | .line s => ∃ k, goAtoi (goTrimSpace s) = some k ∧ (k < 1 ∨ k > (n : Int))

theorem selectorLoop_skips_reprompts (n : Nat) :
    ∀ (pre rest : List ReadResult) (log : List String),
      (∀ r ∈ pre, repromptRead n r) →
      ∃ log', selectorLoop n (pre ++ rest) log
        = selectorLoop n rest (log ++ log') := by
  intro pre
  induction pre with
  | nil => intro rest log _; exact ⟨[], by simp⟩
  | cons r t ih =>
    intro rest log hall
    have hr := hall r (List.mem_cons_self r t)
    have hall' : ∀ x ∈ t, repromptRead n x :=
      fun x hx => hall x (List.mem_cons_of_mem r hx)
    cases r with
    | readErr =>
      simp only [List.cons_append, selectorLoop]
      rcases ih rest (log ++ [promptMsg, "error reading from stdin"]) hall'
        with ⟨log', hlog⟩
      exact ⟨[promptMsg, "error reading from stdin"] ++ log',
        by simpa [List.append_assoc] using hlog⟩
    | line s =>
      rcases hr with ⟨k, hk, hrange⟩
      simp only [List.cons_append, selectorLoop, hk]
      rw [if_pos hrange]
      rcases ih rest (log ++ [promptMsg, noEntryMsg k]) hall' with ⟨log', hlog⟩
      exact ⟨[promptMsg, noEntryMsg k] ++ log',
        by simpa [List.append_assoc] using hlog⟩

theorem exitCode_prependLog (pre : List String) (o : RunOutcome) :
    (o.prependLog pre).exitCode? = o.exitCode? := by
  cases o <;> rfl

theorem installCmd_prependLog (pre : List String) (o : RunOutcome) :
    (o.prependLog pre).installCmd? = o.installCmd? := by
  cases o <;> rfl

/-! ### Claims about the selector and installer (C5, C6, C7, C10) -/

/-- C5: whenever the selector reads a line that, after whitespace
trimming, does not parse as an integer — after any number of reads it
answered with a re-prompt — the run terminates with exit status 0 and the
install subprocess is never invoked. -/
theorem c5_noninteger_input_exits_success (c : FilterCriteria) (q : String)
    (goflags : List String) (env : InstallEnv) (check : String → Bool)
    (hits : List pack) (pre : List ReadResult) (s : String)
    (rest : List ReadResult)
    (hnonempty : displayedPacks c q hits ≠ [])
    (hpre : ∀ r ∈ pre, repromptRead (displayedPacks c q hits).length r)
    (hs : goAtoi (goTrimSpace s) = none) :
    (runFromMatches c q goflags env check hits
      (pre ++ .line s :: rest)).exitCode? = some 0 ∧
    (runFromMatches c q goflags env check hits
      (pre ++ .line s :: rest)).installCmd? = none := by
  rcases selectorLoop_skips_reprompts (displayedPacks c q hits).length pre
    (.line s :: rest) [] hpre with ⟨log', hlog⟩
  have hlen : (displayedPacks c q hits).length ≠ 0 :=
    fun h0 => hnonempty (List.eq_nil_of_length_eq_zero h0)
  simp only [runFromMatches]
  rw [if_neg (by simpa [displayedPacks] using hlen)]
  rw [exitCode_prependLog, installCmd_prependLog]
  simp only [runAfterDisplay]
  rw [show (displayedEntries c q hits).map Prod.snd = displayedPacks c q hits
    from rfl, hlog]
  simp only [selectorLoop, hs]
  exact ⟨rfl, rfl⟩

/-- C6: for an N-entry displayed sequence, a read line whose trimmed text
parses to the integer k is accepted exactly when 1 ≤ k ≤ N: in range the
loop breaks with selection k (and the installer is invoked on the k-th
displayed entry's path); out of range the loop prints the diagnostic
naming k and re-prompts on the remaining input. -/
theorem c6_selector_accepts_iff_in_range (packs : List pack)
    (goflags : List String) (env : InstallEnv) (s : String) (k : Int)
    (rest : List ReadResult)
    (hk : goAtoi (goTrimSpace s) = some k) :
    (1 ≤ k ∧ k ≤ (packs.length : Int) →
      selectorLoop packs.length (.line s :: rest) [] =
        .chosen k.toNat rest [promptMsg]) ∧
    (¬(1 ≤ k ∧ k ≤ (packs.length : Int)) →
      selectorLoop packs.length (.line s :: rest) [] =
        selectorLoop packs.length rest [promptMsg, noEntryMsg k]) ∧
    (1 ≤ k ∧ k ≤ (packs.length : Int) → ∀ g, env.goBin = some g →
      (runAfterDisplay packs goflags env (.line s :: rest)).installCmd? =
        some (g, installArgs goflags
          ((packs.getD (k.toNat - 1) default).path))) := by
  refine ⟨?_, ?_, ?_⟩
  · intro hin
    simp only [selectorLoop, hk]
    rw [if_neg (by omega)]
    simp
  · intro hout
    simp only [selectorLoop, hk]
    rw [if_pos (by omega)]
    simp
  · intro hin g hg
    simp only [runAfterDisplay, selectorLoop, hk]
    rw [if_neg (by omega)]
    simp only [hg]
    cases henv : env.installOk <;> simp [henv, RunOutcome.installCmd?]

/-- C7: whenever the filtered sequence is empty, the presenter prints a
single "No matches." message, the run exits with failure status 1, no
install prompt is ever shown, and the installer is never invoked. -/
theorem c7_empty_filter_no_matches (c : FilterCriteria) (q : String)
    (goflags : List String) (env : InstallEnv) (check : String → Bool)
    (hits : List pack) (script : List ReadResult)
    (h : displayedEntries c q hits = []) :
    (runFromMatches c q goflags env check hits script).exitCode? = some 1 ∧
    (runFromMatches c q goflags env check hits script).installCmd? = none ∧
    ((runFromMatches c q goflags env check hits script).writes).count
      "No matches." = 1 ∧
    promptMsg ∉ (runFromMatches c q goflags env check hits script).writes := by
  simp only [runFromMatches, h]
  cases hsi : c.showInstalled <;>
    simp [RunOutcome.exitCode?, RunOutcome.installCmd?, RunOutcome.writes,
      tableHeader, promptMsg]

/-- C10: once an entry is selected and the go binary is found, the
confirmation read's outcome is ignored entirely — whatever follows the
selection line in the input script (any line, a read error, or nothing at
all, i.e. end of input), the run outcome is identical, the install
subprocess is spawned, and a successful install exits 0 — the
confirmation can never abort or retry. -/
theorem c10_confirmation_read_ignored (packs : List pack)
    (goflags : List String) (env : InstallEnv) (s : String) (k : Int)
    (rest rest' : List ReadResult)
    (hk : goAtoi (goTrimSpace s) = some k)
    (h1 : 1 ≤ k) (h2 : k ≤ (packs.length : Int)) :
    runAfterDisplay packs goflags env (.line s :: rest) =
      runAfterDisplay packs goflags env (.line s :: rest') ∧
    (env.goBin ≠ none →
      (runAfterDisplay packs goflags env (.line s :: rest)).installCmd?
        ≠ none) ∧
    (env.goBin ≠ none → env.installOk = true →
      (runAfterDisplay packs goflags env (.line s :: rest)).exitCode?
        = some 0) := by
  refine ⟨?_, ?_, ?_⟩
  · simp only [runAfterDisplay, selectorLoop, hk]
    rw [if_neg (by omega), if_neg (by omega)]
  · intro hg
    rcases Option.ne_none_iff_exists.mp hg with ⟨g, hg'⟩
    simp only [runAfterDisplay, selectorLoop, hk]
    rw [if_neg (by omega)]
    simp only [← hg']
    cases henv : env.installOk <;> simp [RunOutcome.installCmd?]
  · intro hg hok
    rcases Option.ne_none_iff_exists.mp hg with ⟨g, hg'⟩
    simp only [runAfterDisplay, selectorLoop, hk]
    rw [if_neg (by omega)]
    simp only [← hg', hok]
    simp [RunOutcome.exitCode?]

/-! ### Concrete example data for witnesses -/

/-- A concrete library hit used by the witnesses. -/
def exPack : pack :=
  { name := "lib", path := "example.com/foo", importCount := 3,
    synopsis := "", fork := false, stars := 2 }

/-- A second concrete library hit used by the witnesses. -/
def exPack2 : pack :=
  { name := "lib2", path := "example.com/foobar", importCount := 9,
    synopsis := "", fork := false, stars := 1 }

/-- The default flag values of `run` (main.go lines 31-37). -/
def exCrit : FilterCriteria :=
  { limit := 10, forks := false, apps := false, minStars := 1,
    minImports := 0, showInstalled := false, inPath := true }

/-- A concrete install environment: go binary found, install succeeds. -/
def exEnv : InstallEnv :=
  { goBin := some "/usr/local/bin/go", installOk := true,
    installErrText := "exit status 1" }

/-! ### Witnesses -/

/-- Witness for C1: at the default criteria, query "foo" and a one-hit
input, the single output entry satisfies all five predicates. -/
theorem c1_filter_output_satisfies_predicates_witness :
    exPack ∈ displayedPacks exCrit "foo" [exPack] ∧
    ((exCrit.forks = true ∨ exPack.fork = false) ∧
     (exCrit.apps = true → exPack.name = "main") ∧
     (exCrit.apps = false → exPack.name ≠ "main") ∧
     exCrit.minStars ≤ exPack.stars ∧
     exCrit.minImports ≤ exPack.importCount ∧
     (exCrit.inPath = true → goContains exPack.path "foo" = true)) :=
  ⟨by decide,
    c1_filter_output_satisfies_predicates exCrit "foo" [exPack] exPack
      (by decide)⟩

/-- Witness for C5: feeding the single line "abc" after a one-entry
display exits with status 0 and never invokes the installer (the spec's
selector scenario). -/
theorem c5_noninteger_input_exits_success_witness :
    displayedPacks exCrit "foo" [exPack] ≠ [] ∧
    goAtoi (goTrimSpace "abc") = none ∧
    (runFromMatches exCrit "foo" ["-u", "-v"] exEnv (fun _ => false)
      [exPack] [ReadResult.line "abc"]).exitCode? = some 0 ∧
    (runFromMatches exCrit "foo" ["-u", "-v"] exEnv (fun _ => false)
      [exPack] [ReadResult.line "abc"]).installCmd? = none :=
  have h := c5_noninteger_input_exits_success exCrit "foo" ["-u", "-v"]
    exEnv (fun _ => false) [exPack] [] "abc" [] (by decide) (by simp)
    (by decide)
  ⟨by decide, by decide, h.1, h.2⟩

/-- Witness for C6: with two displayed entries, "5" is rejected with the
diagnostic `No entry for 5` and a re-prompt, "1" is accepted, and the
installer receives the first entry's path (the spec's selector
scenarios). -/
theorem c6_selector_accepts_iff_in_range_witness :
    goAtoi (goTrimSpace "5") = some 5 ∧
    goAtoi (goTrimSpace "1") = some 1 ∧
    selectorLoop 2 [ReadResult.line "5", ReadResult.line "1"] []
      = selectorLoop 2 [ReadResult.line "1"] [promptMsg, noEntryMsg 5] ∧
    selectorLoop 2 [ReadResult.line "1"] []
      = SelectorResult.chosen 1 [] [promptMsg] ∧
    (runAfterDisplay [exPack, exPack2] ["-u", "-v"] exEnv
        [ReadResult.line "1"]).installCmd?
      = some ("/usr/local/bin/go", installArgs ["-u", "-v"] "example.com/foo") :=
  ⟨by decide, by decide,
   (c6_selector_accepts_iff_in_range [exPack, exPack2] ["-u", "-v"] exEnv
     "5" 5 [ReadResult.line "1"] (by decide)).2.1 (by decide),
   (c6_selector_accepts_iff_in_range [exPack, exPack2] ["-u", "-v"] exEnv
     "1" 1 [] (by decide)).1 (by decide),
   (c6_selector_accepts_iff_in_range [exPack, exPack2] ["-u", "-v"] exEnv
     "1" 1 [] (by decide)).2.2 (by decide) "/usr/local/bin/go" rfl⟩

/-- Witness for C7: an empty hit list filters to nothing, and the run
prints one "No matches." line, exits 1, shows no prompt and spawns no
install. -/
theorem c7_empty_filter_no_matches_witness :
    displayedEntries exCrit "foo" [] = [] ∧
    (runFromMatches exCrit "foo" ["-u", "-v"] exEnv (fun _ => false) []
      []).exitCode? = some 1 ∧
    (runFromMatches exCrit "foo" ["-u", "-v"] exEnv (fun _ => false) []
      []).installCmd? = none ∧
    ((runFromMatches exCrit "foo" ["-u", "-v"] exEnv (fun _ => false) []
      []).writes).count "No matches." = 1 ∧
    promptMsg ∉ (runFromMatches exCrit "foo" ["-u", "-v"] exEnv
      (fun _ => false) [] []).writes :=
  have h := c7_empty_filter_no_matches exCrit "foo" ["-u", "-v"] exEnv
    (fun _ => false) [] [] (by decide)
  ⟨by decide, h.1, h.2.1, h.2.2.1, h.2.2.2⟩

/-- Witness for C8: at the default criteria (limit 10) with one input
hit, the output length respects both bounds. -/
theorem c8_output_length_bound_witness :
    0 < exCrit.limit ∧
    ((displayedPacks exCrit "foo" [exPack]).length : Int) ≤ exCrit.limit ∧
    (displayedPacks exCrit "foo" [exPack]).length
      ≤ ([exPack] : List pack).length :=
  ⟨by decide, (c8_output_length_bound exCrit "foo" [exPack]).1 (by decide),
    (c8_output_length_bound exCrit "foo" [exPack]).2⟩

/-- Witness for C10: after selecting entry 1, appending a read error to
the script changes nothing, the installer is spawned, and the successful
install exits 0. -/
theorem c10_confirmation_read_ignored_witness :
    runAfterDisplay [exPack] ["-u", "-v"] exEnv [ReadResult.line "1"] =
      runAfterDisplay [exPack] ["-u", "-v"] exEnv
        [ReadResult.line "1", ReadResult.readErr] ∧
    (runAfterDisplay [exPack] ["-u", "-v"] exEnv
      [ReadResult.line "1"]).installCmd? ≠ none ∧
    (runAfterDisplay [exPack] ["-u", "-v"] exEnv
      [ReadResult.line "1"]).exitCode? = some 0 :=
  have h := c10_confirmation_read_ignored [exPack] ["-u", "-v"] exEnv "1" 1
    [] [ReadResult.readErr] (by decide) (by decide) (by decide)
  ⟨h.1, h.2.1 (by decide), h.2.2 (by decide) rfl⟩

end Gosearch
